import Mathlib

/-!
Verification of the footnote extraction and merge pipeline of the
bible-databases repository, as implemented in
`scripts/extract_mysword_footnotes.py` (Dialect A, MySword) and
`scripts/extract_sword_footnotes.py` (Dialect B, SWORD/OSIS).

Python strings are modelled as `List Char` (wrapped into `String` at the
function boundaries).  The small fixed set of regular expressions used by the
scripts is modelled by explicit character scanners with the same semantics:
left-to-right, leftmost match, non-overlapping, `.` not matching a newline
(the scripts never pass `re.DOTALL`), and greedy/non-greedy behaviour encoded
directly in each scanner.  Python's `\s` and `str.strip` are modelled with
`Char.isWhitespace`, `str.lower` with `Char.toLower`, and `\d` with
`Char.isDigit` (ASCII approximations of the corresponding Unicode classes;
none of the verified properties depends on the difference).

Python dicts keyed by `(book, chapter, verse)` are modelled as
insertion-ordered association lists.
-/

namespace BibleDB

/-! ## Data model (the canonical KJV.json document) -/

/-- Inline footnote as stored on a verse object. -/
structure Footnote where
  catch_word : String
  note_text : String
  note_type : String
deriving DecidableEq, Repr

/-- Verse object; `footnotes = none` models the absence of the optional
`footnotes` key, `some l` models its presence with value `l`. -/
structure Verse where
  verse : Nat
  text : String
  footnotes : Option (List Footnote)
deriving DecidableEq, Repr

/-- Chapter object: chapter number and ordered verses. -/
structure Chapter where
  chapter : Nat
  verses : List Verse
deriving DecidableEq, Repr

/-- Book object: name and ordered chapters. -/
structure Book where
  name : String
  chapters : List Chapter
deriving DecidableEq, Repr

/-- Flat top-level footnote record (denormalized, with sequential id). -/
structure FlatFootnote where
  id : Nat
  book : String
  chapter : Nat
  verse : Nat
  catch_word : String
  note_text : String
  note_type : String
deriving DecidableEq, Repr

/-- The canonical document: ordered books plus the flat footnote array. -/
structure Document where
  books : List Book
  footnotes : List FlatFootnote
deriving DecidableEq, Repr

/-- Location key `(book_name, chapter, verse)` addressing a verse. -/
abbrev LocKey := String × Nat × Nat

/-- The location-keyed mapping produced by an extractor, modelling an
insertion-ordered Python dict `(book, chapter, verse) -> [footnote, ...]`. -/
abbrev FnMap := List (LocKey × List Footnote)

/-- First-match association-list lookup, modelling Python dict lookup
(keys are unique by construction, so first match is the match). -/
def alookup {κ β : Type} [DecidableEq κ] : List (κ × β) → κ → Option β
  | [], _ => none
  | (k, v) :: rest, key => if k = key then some v else alookup rest key

/-- Append `fn` under key `k`, creating the key at the end of the map when
absent: models `if key not in d: d[key] = []` followed by `d[key].append(fn)`
on an insertion-ordered dict. -/
def mapAppend (m : FnMap) (k : LocKey) (fn : Footnote) : FnMap :=
  match m with
  | [] => [(k, [fn])]
  | (k', fns) :: rest =>
      if k' = k then (k', fns ++ [fn]) :: rest else (k', fns) :: mapAppend rest k fn

/-! ## String scanning primitives (models of the `re` operations used) -/

/-- Match the literal pattern `pat` at the head of the input, returning the
rest of the input after it. -/
def matchLit : List Char → List Char → Option (List Char)
  | [], l => some l
  | _ :: _, [] => none
  | p :: ps, c :: cs => if c = p then matchLit ps cs else none

/-- Fuelled driver for `re.sub(pattern, '', text)`-style deletion: at each
position try the matcher; on a match drop the matched span and continue after
it (Python `re.sub` does not rescan replaced output), otherwise keep the
character.  Every matcher used consumes at least one character, so fuel
`l.length` never runs out. -/
def scrubF (m : List Char → Option (List Char)) : Nat → List Char → List Char
  | 0, l => l
  | _ + 1, [] => []
  | n + 1, c :: cs =>
    match m (c :: cs) with
    | some rest => scrubF m n rest
    | none => c :: scrubF m n cs

/-- Remove every occurrence matched by `m` (see `scrubF`). -/
def scrub (m : List Char → Option (List Char)) (l : List Char) : List Char :=
  scrubF m l.length l

/-- Fuelled driver for Python `str.replace(pat, rep)`: left-to-right,
non-overlapping, scanning the original string only. -/
def pyReplaceF (pat rep : List Char) : Nat → List Char → List Char
  | 0, l => l
  | _ + 1, [] => []
  | n + 1, c :: cs =>
    match matchLit pat (c :: cs) with
    | some rest => rep ++ pyReplaceF pat rep n rest
    | none => c :: pyReplaceF pat rep n cs

/-- Python `str.replace(pat, rep)` (for nonempty `pat`). -/
def pyReplace (pat rep : List Char) (l : List Char) : List Char :=
  pyReplaceF pat rep l.length l

mutual

/-- Model of `re.sub(r'\s+', ' ', text)`: every maximal whitespace run is
replaced by a single space. -/
def collapseWs : List Char → List Char
  | [] => []
  | c :: cs => if c.isWhitespace then ' ' :: collapseSkip cs else c :: collapseWs cs

/-- State of `collapseWs` inside a whitespace run whose single `' '` has
already been emitted. -/
def collapseSkip : List Char → List Char
  | [] => []
  | c :: cs => if c.isWhitespace then collapseSkip cs else c :: collapseWs cs

end

/-- Python `str.strip()`: drop leading and trailing whitespace. -/
def trimWs (l : List Char) : List Char :=
  ((l.dropWhile Char.isWhitespace).reverse.dropWhile Char.isWhitespace).reverse

mutual

/-- Python `str.split()` with no argument: split on whitespace runs,
discarding empty fragments. -/
def pySplit : List Char → List (List Char)
  | [] => []
  | c :: cs => if c.isWhitespace then pySplit cs else pySplitW [c] cs

/-- State of `pySplit` inside a word; `acc` holds the reversed word read so
far. -/
def pySplitW (acc : List Char) : List Char → List (List Char)
  | [] => [acc.reverse]
  | c :: cs => if c.isWhitespace then acc.reverse :: pySplit cs else pySplitW (c :: acc) cs

end

/-! ## Dialect A: the MySword extractor (`extract_mysword_footnotes.py`) -/

namespace MySword

/-- The module-level `BOOK_NAMES` table: MySword book number (1-66) to
project book name. -/
def BOOK_NAMES : List (Nat × String) :=
  [(1, "Genesis"), (2, "Exodus"), (3, "Leviticus"), (4, "Numbers"),
   (5, "Deuteronomy"), (6, "Joshua"), (7, "Judges"), (8, "Ruth"),
   (9, "I Samuel"), (10, "II Samuel"), (11, "I Kings"), (12, "II Kings"),
   (13, "I Chronicles"), (14, "II Chronicles"), (15, "Ezra"), (16, "Nehemiah"),
   (17, "Esther"), (18, "Job"), (19, "Psalms"), (20, "Proverbs"),
   (21, "Ecclesiastes"), (22, "Song of Solomon"), (23, "Isaiah"),
   (24, "Jeremiah"), (25, "Lamentations"), (26, "Ezekiel"), (27, "Daniel"),
   (28, "Hosea"), (29, "Joel"), (30, "Amos"), (31, "Obadiah"), (32, "Jonah"),
   (33, "Micah"), (34, "Nahum"), (35, "Habakkuk"), (36, "Zephaniah"),
   (37, "Haggai"), (38, "Zechariah"), (39, "Malachi"),
   (40, "Matthew"), (41, "Mark"), (42, "Luke"), (43, "John"), (44, "Acts"),
   (45, "Romans"), (46, "I Corinthians"), (47, "II Corinthians"),
   (48, "Galatians"), (49, "Ephesians"), (50, "Philippians"),
   (51, "Colossians"), (52, "I Thessalonians"), (53, "II Thessalonians"),
   (54, "I Timothy"), (55, "II Timothy"), (56, "Titus"), (57, "Philemon"),
   (58, "Hebrews"), (59, "James"), (60, "I Peter"), (61, "II Peter"),
   (62, "I John"), (63, "II John"), (64, "III John"), (65, "Jude"),
   (66, "Revelation of John")]

/-- The project book names (the values of `BOOK_NAMES`). -/
def projectBookNames : List String := BOOK_NAMES.map Prod.snd

/-- Matcher for `</?N>` where `N` is the literal tag name `name`
(used for `</?i>`, `</?b>`, `</?Fr>`, `</?Fo>`, `</?Fi>`, `</?Fa>`). -/
def matchTagLit (name : List Char) (l : List Char) : Option (List Char) :=
  (matchLit ('<' :: '/' :: (name ++ ['>'])) l) <|> (matchLit ('<' :: (name ++ ['>'])) l)

/-- After `<W[HG]` and one digit: consume further digits of `\d+` up to `>`. -/
def digitsGt : List Char → Option (List Char)
  | [] => none
  | c :: cs => if c = '>' then some cs else if c.isDigit then digitsGt cs else none

/-- Matcher for the Strong's number pattern `<W[HG]\d+>`. -/
def matchStrongs : List Char → Option (List Char)
  | '<' :: 'W' :: c :: d :: rest =>
      if (c == 'H' || c == 'G') && d.isDigit then digitsGt rest else none
  | _ => none

/-- Matcher for the formatting-tag pattern `</?F[ROIA]>`. -/
def matchFmtROIA (l : List Char) : Option (List Char) :=
  (matchTagLit ['F', 'R'] l) <|> (matchTagLit ['F', 'O'] l) <|>
  (matchTagLit ['F', 'I'] l) <|> (matchTagLit ['F', 'A'] l)

/-- Matcher for the pilcrow pattern `Â¶\s*` (the two literal characters as
they appear, mojibake included, in the script, then greedy `\s*`). -/
def matchPilcrow (l : List Char) : Option (List Char) :=
  (matchLit ['Â', '¶'] l).map (fun r => r.dropWhile Char.isWhitespace)

/-- Python `str.rstrip(':;,.')`: drop trailing characters from that set. -/
def rstripPunct (l : List Char) : List Char :=
  (l.reverse.dropWhile (fun c => c == ':' || c == ';' || c == ',' || c == '.')).reverse

/-- The cleaning pipeline of `extract_catch_word` (lines 61-72): strip the
MySword markup tags in source order, then `strip()`, then `rstrip(':;,.')`. -/
def catchClean (t : List Char) : List Char :=
  let c1 := scrub matchStrongs t
  let c2 := scrub matchFmtROIA c1
  let c3 := scrub (matchTagLit ['F', 'r']) c2
  let c4 := scrub (matchTagLit ['F', 'o']) c3
  let c5 := scrub (matchTagLit ['F', 'i']) c4
  let c6 := scrub (matchTagLit ['F', 'a']) c5
  let c7 := scrub (matchLit (("<CM>").data)) c6
  let c8 := scrub matchPilcrow c7
  rstripPunct (trimWs c8)

/-- `extract_catch_word`: last whitespace-delimited token of the cleaned
prefix, or `""` when the cleaned prefix (or its word list) is empty. -/
def extract_catch_word (s : String) : String :=
  let clean := catchClean s.data
  if clean = [] then ""
  else
    match (pySplit clean).getLast? with
    | some w => String.mk w
    | none => ""

/-- Python `str.lower()` (character-wise). -/
def pyLower (l : List Char) : List Char := l.map Char.toLower

/-- Python's substring operator `pat in s`: `pat` occurs contiguously in
`s`. -/
def containsSub (pat : List Char) : List Char → Bool
  | [] => (matchLit pat []).isSome
  | c :: cs => (matchLit pat (c :: cs)).isSome || containsSub pat cs

/-- The literal-translation marker set of `classify_note_type`. -/
def literalMarkers : List (List Char) :=
  [("heb.").data, ("gr.").data, ("chald.").data, ("greek").data,
   ("the word in the original").data, ("that is,").data]

/-- The alternate-reading marker set of `classify_note_type`. -/
def alternateMarkers : List (List Char) :=
  [("or,").data, ("or ").data, ("some read,").data, ("some copies read").data]

/-- The `has_literal` flag: some literal marker occurs in the lowered text. -/
def has_literal (text_lower : List Char) : Bool :=
  literalMarkers.any (fun mrk => containsSub mrk text_lower)

/-- The `has_alternate` flag: some alternate marker occurs in the lowered
text. -/
def has_alternate (text_lower : List Char) : Bool :=
  alternateMarkers.any (fun mrk => containsSub mrk text_lower)

/-- `classify_note_type`: mixed / literal / alternate by marker matching,
defaulting to alternate. -/
def classify_note_type (note_text : String) : String :=
  let text_lower := pyLower note_text.data
  if has_literal text_lower && has_alternate text_lower then "mixed"
  else if has_literal text_lower then "literal"
  else if has_alternate text_lower then "alternate"
  else "alternate"

/-- Tail of a generic angle tag: consume `[^>]*` then `>`. -/
def angleTail : List Char → Option (List Char)
  | [] => none
  | c :: cs => if c = '>' then some cs else angleTail cs

/-- Matcher for the generic tag pattern `<[^>]+>` (at least one non-`>`
character between the brackets). -/
def matchAngle : List Char → Option (List Char)
  | '<' :: c :: cs => if c = '>' then none else angleTail cs
  | _ => none

/-- `clean_note_text` (lines 131-147): strip `</?i>` and `</?b>`, strip any
other `<...>` tag, decode the three HTML entities, collapse whitespace and
trim.  (The source's `text.replace('&c', '&c')` replaces a string with
itself and is omitted as the identity.) -/
def cleanNoteL (raw : List Char) : List Char :=
  let t1 := scrub (matchTagLit ['i']) raw
  let t2 := scrub (matchTagLit ['b']) t1
  let t3 := scrub matchAngle t2
  let t4 := pyReplace (("&amp;").data) (("&").data) t3
  let t5 := pyReplace (("&lt;").data) (("<").data) t4
  let t6 := pyReplace (("&gt;").data) ((">").data) t5
  trimWs (collapseWs t6)

/-- `clean_note_text` on `String`. -/
def clean_note_text (raw : String) : String := String.mk (cleanNoteL raw.data)

/-- Split the input at the first occurrence of `pat`, provided no newline
intervenes (`.` in the scripts' patterns never matches a newline): returns
the content before `pat` and the rest after it, scanning non-greedily. -/
def splitAtPat (pat : List Char) : List Char → Option (List Char × List Char)
  | [] => none
  | c :: cs =>
    match matchLit pat (c :: cs) with
    | some r => some ([], r)
    | none =>
      if c = '\n' then none
      else (splitAtPat pat cs).map (fun pr => (c :: pr.1, pr.2))

/-- Match one `<RF>(.*?)<Rf>` footnote span at the head of the input,
returning the note content and the rest. -/
def rfMatchAt (l : List Char) : Option (List Char × List Char) :=
  (matchLit (("<RF>").data) l).bind (splitAtPat (("<Rf>").data))

/-- Fuelled scan modelling `re.split(r'(<RF>.*?<Rf>)', scripture)` followed
by the `text_so_far` loop of `extract_footnotes_from_mysword`: produces, per
matched footnote span, the pair (text since the previous span or the verse
start, note content).  `acc` holds that text reversed. -/
def rfSplitF : Nat → List Char → List Char → List (List Char × List Char)
  | 0, _, _ => []
  | _ + 1, _, [] => []
  | n + 1, acc, c :: cs =>
    match rfMatchAt (c :: cs) with
    | some (content, rest) => (acc.reverse, content) :: rfSplitF n [] rest
    | none => rfSplitF n (c :: acc) cs

/-- All `<RF>...<Rf>` spans of a scripture text with their preceding
context. -/
def rfSplit (l : List Char) : List (List Char × List Char) := rfSplitF l.length [] l

/-- The footnotes of one verse's scripture text, in marker order, as built
in the inner loop of `extract_footnotes_from_mysword` (lines 177-199). -/
def rowNotes (scripture : String) : List Footnote :=
  (rfSplit scripture.data).map (fun pr =>
    let note_text := clean_note_text (String.mk pr.2)
    { catch_word := extract_catch_word (String.mk pr.1),
      note_text := note_text,
      note_type := classify_note_type note_text })

/-- One row of the `SELECT Book, Chapter, Verse, Scripture FROM Bible`
cursor. -/
structure MswRow where
  book : Nat
  chapter : Nat
  verse : Nat
  scripture : String
deriving DecidableEq, Repr

/-- The SQL `WHERE Book >= min_book AND Scripture LIKE '%<RF>%'` filter. -/
def rowKeep (minBook : Nat) (r : MswRow) : Bool :=
  decide (minBook ≤ r.book) && containsSub (("<RF>").data) r.scripture.data

/-- Processing of one cursor row: unknown book numbers are skipped (with a
printed warning in the script); otherwise every footnote of the row is
appended to the mapping under the row's location key. -/
def mswStep (m : FnMap) (r : MswRow) : FnMap :=
  match alookup BOOK_NAMES r.book with
  | none => m
  | some book_name =>
      (rowNotes r.scripture).foldl
        (fun acc fn => mapAppend acc (book_name, r.chapter, r.verse) fn) m

/-- `extract_footnotes_from_mysword` over the cursor rows (the SQLite access
itself is external I/O; the rows arrive ordered by book, chapter, verse). -/
def extract_footnotes_from_mysword (rows : List MswRow) (nt_only : Bool) : FnMap :=
  let min_book := if nt_only then 40 else 1
  (rows.filter (rowKeep min_book)).foldl mswStep []

/-! ### The merger (`merge_footnotes_into_json`) -/

/-- `nt_book_names`: the names of books 40-66 (the New Testament scope). -/
def ntBookNames : List String :=
  (List.range' 40 27).filterMap (fun i => alookup BOOK_NAMES i)

/-- Per-verse merge step (lines 233-243): set the footnotes when the location
key is in the mapping; otherwise leave the verse alone in NT-only mode and
remove the footnote field in full-replace mode. -/
def update_verse (m : FnMap) (nt_only : Bool) (book_name : String) (ch_num : Nat)
    (v : Verse) : Verse :=
  match alookup m (book_name, ch_num, v.verse) with
  | some fns => { v with footnotes := some fns }
  | none => if nt_only then v else { v with footnotes := none }

/-- Per-chapter merge step. -/
def update_chapter (m : FnMap) (nt_only : Bool) (book_name : String)
    (c : Chapter) : Chapter :=
  { c with verses := c.verses.map (update_verse m nt_only book_name c.chapter) }

/-- Per-book merge step (lines 224-229): in NT-only mode books outside
`nt_book_names` are skipped entirely. -/
def update_book (m : FnMap) (nt_only : Bool) (b : Book) : Book :=
  if nt_only = true ∧ b.name ∉ ntBookNames then b
  else { b with chapters := b.chapters.map (update_chapter m nt_only b.name) }

/-- The flat records of one verse, denormalized with its location. -/
def verseRecords (book_name : String) (ch_num : Nat) (v : Verse) :
    List (String × Nat × Nat × Footnote) :=
  match v.footnotes with
  | some fns => fns.map (fun fn => (book_name, ch_num, v.verse, fn))
  | none => []

/-- The in-order traversal of every footnote attached to every verse
(book order, then chapter order, then verse order, then in-verse order). -/
def rawRecords (books : List Book) : List (String × Nat × Nat × Footnote) :=
  (books.map (fun b =>
    (b.chapters.map (fun c => (c.verses.map (verseRecords b.name c.chapter)).flatten)).flatten)).flatten

/-- Build one flat record from a 1-based position and a raw record. -/
def mkFlat (i : Nat) (r : String × Nat × Nat × Footnote) : FlatFootnote :=
  { id := i, book := r.1, chapter := r.2.1, verse := r.2.2.1,
    catch_word := r.2.2.2.catch_word, note_text := r.2.2.2.note_text,
    note_type := r.2.2.2.note_type }

/-- Rebuild of the flat top-level footnotes array (lines 246-265): ids are
assigned 1..N in traversal order. -/
def flat_footnotes (books : List Book) : List FlatFootnote :=
  (rawRecords books).enum.map (fun p => mkFlat (p.1 + 1) p.2)

/-- `merge_footnotes_into_json`: update the inline footnotes of every verse,
then rebuild the flat array from the updated books.  The prior top-level
`footnotes` value of the document is never read. -/
def merge_footnotes_into_json (d : Document) (m : FnMap) (nt_only : Bool) : Document :=
  let books := d.books.map (update_book m nt_only)
  { books := books, footnotes := flat_footnotes books }

end MySword

/-! ## Dialect B: the SWORD/OSIS extractor (`extract_sword_footnotes.py`) -/

namespace Sword

/-- The `SWORD_TO_PROJECT_BOOK_NAMES` override table: empty in the source
(every SWORD name is used as-is via `.get(name, name)`). -/
def SWORD_TO_PROJECT_BOOK_NAMES : List (String × String) := []

/-- Scan for the closing pattern `pat` with no intervening newline,
returning the rest after it (the non-greedy `.*?` before a literal
closer). -/
def scanClose (pat : List Char) : List Char → Option (List Char)
  | [] => none
  | c :: cs =>
    match matchLit pat (c :: cs) with
    | some r => some r
    | none => if c = '\n' then none else scanClose pat cs

/-- Matcher for `<name[^>]*>`: the literal `<name`, then any non-`>`
characters, then `>`. -/
def matchTagOpenNamed (name : List Char) (l : List Char) : Option (List Char) :=
  (matchLit ('<' :: name) l).bind MySword.angleTail

/-- First `opener(.*?)closer` match content in the input (model of
`re.search(...).group(1)`), or `none` when there is no match. -/
def searchContent (opener closer : List Char) : List Char → Option (List Char)
  | [] => none
  | c :: cs =>
    match (matchLit opener (c :: cs)).bind (MySword.splitAtPat closer) with
    | some pr => some pr.1
    | none => searchContent opener closer cs

/-- Fuelled scan for all `opener(.*?)closer` match contents (model of
`re.findall` with one group). -/
def findContentsF (opener closer : List Char) : Nat → List Char → List (List Char)
  | 0, _ => []
  | _ + 1, [] => []
  | n + 1, c :: cs =>
    match (matchLit opener (c :: cs)).bind (MySword.splitAtPat closer) with
    | some pr => pr.1 :: findContentsF opener closer n pr.2
    | none => findContentsF opener closer n cs

/-- All `opener(.*?)closer` match contents in the input. -/
def findContents (opener closer : List Char) (l : List Char) : List (List Char) :=
  findContentsF opener closer l.length l

/-- One `<note[^>]*>.*?</note>` span at the head of the input: the full
matched text and the rest. -/
def noteSpanAt (l : List Char) : Option (List Char × List Char) :=
  match (matchTagOpenNamed (("note").data) l).bind (scanClose (("</note>").data)) with
  | some rest => some (l.take (l.length - rest.length), rest)
  | none => none

/-- Fuelled scan for all full `<note[^>]*>.*?</note>` matches (model of
`re.findall` with no group: the entire match is returned). -/
def findNotesF : Nat → List Char → List (List Char)
  | 0, _ => []
  | _ + 1, [] => []
  | n + 1, c :: cs =>
    match noteSpanAt (c :: cs) with
    | some pr => pr.1 :: findNotesF n pr.2
    | none => findNotesF n cs

/-- All `<note[^>]*>.*?</note>` spans of a raw verse text. -/
def findNotes (l : List Char) : List (List Char) := findNotesF l.length l

/-- The mojibake ellipsis literal replaced by `'...'` in the source. -/
def mojibakeEllipsis : List Char := ['â', '€', '¦']

/-- `parse_note_text` (lines 33-76): catch word from the first
`<catchWord>` element, note type from the structural `<rdg type="...">`
elements, note text from the tag-stripped remainder. -/
def parse_note_text (note_xml : String) : Footnote :=
  let catch_word : String :=
    match searchContent (("<catchWord>").data) (("</catchWord>").data) note_xml.data with
    | some content => String.mk (pyReplace mojibakeEllipsis (("...").data) content)
    | none => ""
  let literals := findContents (("<rdg type=\"x-literal\">").data) (("</rdg>").data) note_xml.data
  let alternates := findContents (("<rdg type=\"alternate\">").data) (("</rdg>").data) note_xml.data
  let note_type : String :=
    if literals ≠ [] ∧ alternates ≠ [] then "mixed"
    else if literals ≠ [] then "literal"
    else "alternate"
  let t1 := scrub (fun l => (matchLit (("<catchWord>").data) l).bind
    (scanClose (("</catchWord>").data))) note_xml.data
  let t2 := scrub (matchTagOpenNamed (("note").data)) t1
  let t3 := scrub (matchLit (("</note>").data)) t2
  let t4 := scrub (matchTagOpenNamed (("rdg").data)) t3
  let t5 := scrub (matchLit (("</rdg>").data)) t4
  let t6 := trimWs ((trimWs t5).dropWhile (fun c => c == ':'))
  let text := collapseWs t6
  { catch_word := catch_word, note_text := String.mk text, note_type := note_type }

/-- One record of the external pysword feed: a book name from the module
structure and one verse's raw OSIS markup (`bible.get(..., clean=False)`). -/
structure SwordRec where
  book : String
  chapter : Nat
  verse : Nat
  raw : String
deriving DecidableEq, Repr

/-- `extract_footnotes` over the per-verse records (lines 95-113): records
without `'<note'` are skipped; the book name is passed through the (empty)
override table with itself as the default; every parsed note is appended
under the record's location key. -/
def swordStep (m : FnMap) (r : SwordRec) : FnMap :=
  let project_name := (alookup SWORD_TO_PROJECT_BOOK_NAMES r.book).getD r.book
  if MySword.containsSub (("<note").data) r.raw.data then
    (findNotes r.raw.data).foldl
      (fun acc nx => mapAppend acc (project_name, r.chapter, r.verse) (parse_note_text (String.mk nx))) m
  else m

/-- The whole extraction loop over the per-verse feed. -/
def extract_footnotes (recs : List SwordRec) : FnMap :=
  recs.foldl swordStep []

/-- Per-verse step of `add_footnotes_to_json` (lines 129-138): set the
footnotes when the location key is present, leave the verse alone
otherwise (this merger never removes footnotes). -/
def add_verse (m : FnMap) (book_name : String) (ch_num : Nat) (v : Verse) : Verse :=
  match alookup m (book_name, ch_num, v.verse) with
  | some fns => { v with footnotes := some fns }
  | none => v

/-- `add_footnotes_to_json`: add inline footnotes to every verse with a key
in the mapping, then rebuild the flat array exactly as the MySword merger
does (lines 141-162 are line-for-line the same rebuild). -/
def add_footnotes_to_json (d : Document) (m : FnMap) : Document :=
  let books := d.books.map (fun b =>
    { b with chapters := b.chapters.map (fun c =>
        { c with verses := c.verses.map (add_verse m b.name c.chapter) }) })
  { books := books, footnotes := MySword.flat_footnotes books }

end Sword

/-- The location-and-content part of a flat record (everything except the
sequential `id`), used to compare the flat array with the inline
traversal. -/
def recOf (f : FlatFootnote) : String × Nat × Nat × Footnote :=
  (f.book, f.chapter, f.verse,
   { catch_word := f.catch_word, note_text := f.note_text, note_type := f.note_type })

/-! ## Helper lemmas -/

/-- Dropping the ids of the rebuilt flat array recovers exactly the in-order
traversal of the inline footnotes. -/
theorem flat_footnotes_map_recOf (books : List Book) :
    (MySword.flat_footnotes books).map recOf = MySword.rawRecords books := by
  unfold MySword.flat_footnotes
  rw [List.map_map]
  have h : (recOf ∘ fun p => MySword.mkFlat (p.1 + 1) p.2)
      = (Prod.snd : Nat × (String × Nat × Nat × Footnote) → _) :=
    funext fun p => rfl
  rw [h, List.enum_map_snd]

/-- The ids of the rebuilt flat array are `1..N` in order. -/
theorem flat_footnotes_map_id (books : List Book) :
    (MySword.flat_footnotes books).map FlatFootnote.id
      = List.range' 1 (MySword.flat_footnotes books).length := by
  unfold MySword.flat_footnotes
  rw [List.map_map, List.length_map, List.enum_length]
  have h : (FlatFootnote.id ∘ fun p => MySword.mkFlat (p.1 + 1) p.2)
      = ((fun i => i + 1) ∘ (Prod.fst : Nat × (String × Nat × Nat × Footnote) → Nat)) :=
    funext fun p => rfl
  rw [h, ← List.map_map, List.enum_map_fst, List.range'_eq_map_range]
  have h2 : (fun i : Nat => i + 1) = (fun i : Nat => 1 + i) :=
    funext fun i => Nat.add_comm i 1
  rw [h2]

/-- `update_verse` does not change the verse number. -/
theorem update_verse_verse (m : FnMap) (o : Bool) (bn : String) (ch : Nat) (v : Verse) :
    (MySword.update_verse m o bn ch v).verse = v.verse := by
  unfold MySword.update_verse
  cases alookup m (bn, ch, v.verse) with
  | some fns => rfl
  | none => cases o <;> rfl

/-- `update_verse` is idempotent. -/
theorem update_verse_idem (m : FnMap) (o : Bool) (bn : String) (ch : Nat) (v : Verse) :
    MySword.update_verse m o bn ch (MySword.update_verse m o bn ch v)
      = MySword.update_verse m o bn ch v := by
  unfold MySword.update_verse
  cases h : alookup m (bn, ch, v.verse) with
  | some fns => simp [h]
  | none => cases o <;> simp [h]

/-- `update_chapter` is idempotent. -/
theorem update_chapter_idem (m : FnMap) (o : Bool) (bn : String) (c : Chapter) :
    MySword.update_chapter m o bn (MySword.update_chapter m o bn c)
      = MySword.update_chapter m o bn c := by
  unfold MySword.update_chapter
  simp only [List.map_map]
  refine congrArg _ (List.map_congr_left fun v _ => ?_)
  exact update_verse_idem m o bn c.chapter v

/-- `update_book` is idempotent. -/
theorem update_book_idem (m : FnMap) (o : Bool) (b : Book) :
    MySword.update_book m o (MySword.update_book m o b) = MySword.update_book m o b := by
  unfold MySword.update_book
  by_cases hb : o = true ∧ b.name ∉ MySword.ntBookNames
  · rw [if_pos hb, if_pos hb]
  · rw [if_neg hb]
    have hname : ({ b with chapters := b.chapters.map (MySword.update_chapter m o b.name) } : Book).name = b.name := rfl
    rw [if_neg (by simpa [hname] using hb)]
    simp only [List.map_map]
    refine congrArg _ (List.map_congr_left fun c _ => ?_)
    exact update_chapter_idem m o b.name c

/-- Appending an entry with a fresh key at the end of a mapping does not
change lookups of other keys. -/
theorem alookup_append_ne {κ β : Type} [DecidableEq κ] (m : List (κ × β)) (k k' : κ)
    (v : β) (h : k' ≠ k) : alookup (m ++ [(k, v)]) k' = alookup m k' := by
  induction m with
  | nil => simp [alookup, h.symm]
  | cons e rest ih =>
    obtain ⟨ke, ve⟩ := e
    by_cases he : ke = k'
    · simp [alookup, he]
    · simp [alookup, he, ih]

/-- A successful lookup comes from an entry of the mapping. -/
theorem alookup_mem {κ β : Type} [DecidableEq κ] (m : List (κ × β)) (k : κ) (v : β)
    (h : alookup m k = some v) : (k, v) ∈ m := by
  induction m with
  | nil => simp [alookup] at h
  | cons e rest ih =>
    obtain ⟨ke, ve⟩ := e
    by_cases he : ke = k
    · subst he
      simp [alookup] at h
      simp [h]
    · simp [alookup, he] at h
      exact List.mem_cons_of_mem _ (ih h)

/-! ## Claim C1 -/

/-- C1.  After any merge (the MySword merger in either mode, and the SWORD
merger), the flat top-level footnotes array equals exactly the in-order
concatenation (book, then chapter, then verse, then within-verse order) of
every footnote attached to every verse, denormalized with the verse's
location (first and third conjuncts), with ids assigned `1..N` in that
traversal order — no gaps, duplicates, or out-of-order jumps (second and
fourth conjuncts) — and the rebuilt document never depends on the flat ids
of a prior run (fifth and sixth conjuncts). -/
theorem c1_flat_rebuild_invariant :
    (∀ (d : Document) (m : FnMap) (o : Bool),
      ((MySword.merge_footnotes_into_json d m o).footnotes).map recOf
        = MySword.rawRecords (MySword.merge_footnotes_into_json d m o).books) ∧
    (∀ (d : Document) (m : FnMap) (o : Bool),
      ((MySword.merge_footnotes_into_json d m o).footnotes).map FlatFootnote.id
        = List.range' 1 ((MySword.merge_footnotes_into_json d m o).footnotes).length) ∧
    (∀ (d : Document) (m : FnMap),
      ((Sword.add_footnotes_to_json d m).footnotes).map recOf
        = MySword.rawRecords (Sword.add_footnotes_to_json d m).books) ∧
    (∀ (d : Document) (m : FnMap),
      ((Sword.add_footnotes_to_json d m).footnotes).map FlatFootnote.id
        = List.range' 1 ((Sword.add_footnotes_to_json d m).footnotes).length) ∧
    (∀ (d : Document) (m : FnMap) (o : Bool) (fns : List FlatFootnote),
      MySword.merge_footnotes_into_json { d with footnotes := fns } m o
        = MySword.merge_footnotes_into_json d m o) ∧
    (∀ (d : Document) (m : FnMap) (fns : List FlatFootnote),
      Sword.add_footnotes_to_json { d with footnotes := fns } m
        = Sword.add_footnotes_to_json d m) := by
  refine ⟨fun d m o => ?_, fun d m o => ?_, fun d m => ?_, fun d m => ?_,
    fun d m o fns => rfl, fun d m fns => rfl⟩
  · exact flat_footnotes_map_recOf _
  · exact flat_footnotes_map_id _
  · exact flat_footnotes_map_recOf _
  · exact flat_footnotes_map_id _

/-! ## Claim C2 -/

/-- C2.  Partial merge (`nt_only = True`, scope = the NT book set): the
merged books are the verse-wise image of `update_book` (first conjunct);
a book outside the scope is left completely untouched (second conjunct); a
book inside the scope is processed verse by verse (third conjunct), where a
verse whose location key is in the mapping gets exactly the mapped list
(fourth conjunct) and a verse whose key is absent is left unchanged,
footnotes included — partial merge never deletes (fifth conjunct). -/
theorem c2_partial_merge_frame (d : Document) (m : FnMap) :
    (MySword.merge_footnotes_into_json d m true).books
        = d.books.map (MySword.update_book m true) ∧
    (∀ b : Book, b.name ∉ MySword.ntBookNames → MySword.update_book m true b = b) ∧
    (∀ b : Book, b.name ∈ MySword.ntBookNames →
      MySword.update_book m true b
        = { b with chapters := b.chapters.map (MySword.update_chapter m true b.name) }) ∧
    (∀ (bn : String) (ch : Nat) (v : Verse) (fns : List Footnote),
      alookup m (bn, ch, v.verse) = some fns →
      MySword.update_verse m true bn ch v = { v with footnotes := some fns }) ∧
    (∀ (bn : String) (ch : Nat) (v : Verse),
      alookup m (bn, ch, v.verse) = none →
      MySword.update_verse m true bn ch v = v) := by
  refine ⟨rfl, fun b hb => ?_, fun b hb => ?_, fun bn ch v fns h => ?_, fun bn ch v h => ?_⟩
  · unfold MySword.update_book
    rw [if_pos ⟨rfl, hb⟩]
  · unfold MySword.update_book
    rw [if_neg (fun hc => hc.2 hb)]
  · unfold MySword.update_verse
    rw [h]
  · unfold MySword.update_verse
    rw [h]
    rfl

/-- Witness for C2 at concrete inputs: an out-of-scope book (`Genesis`) is
untouched, an in-scope verse with a mapped key gets the mapped list, and an
in-scope verse with an unmapped key keeps its existing footnotes. -/
theorem c2_partial_merge_frame_witness :
    MySword.update_book [(("Matthew", 1, 1), [⟨"", "Heb. x", "literal"⟩])] true
        ⟨"Genesis", [⟨1, [⟨1, "t", some [⟨"a", "b", "alternate"⟩]⟩]⟩]⟩
      = ⟨"Genesis", [⟨1, [⟨1, "t", some [⟨"a", "b", "alternate"⟩]⟩]⟩]⟩ ∧
    MySword.update_verse [(("Matthew", 1, 1), [⟨"", "Heb. x", "literal"⟩])] true
        "Matthew" 1 ⟨1, "t", none⟩
      = ⟨1, "t", some [⟨"", "Heb. x", "literal"⟩]⟩ ∧
    MySword.update_verse [(("Matthew", 1, 1), [⟨"", "Heb. x", "literal"⟩])] true
        "Matthew" 1 ⟨2, "t", some [⟨"a", "b", "alternate"⟩]⟩
      = ⟨2, "t", some [⟨"a", "b", "alternate"⟩]⟩ := by
  refine ⟨(c2_partial_merge_frame ⟨[], []⟩ _).2.1 _ (by decide),
    (c2_partial_merge_frame ⟨[], []⟩ _).2.2.2.1 _ 1 _ _ (by decide),
    (c2_partial_merge_frame ⟨[], []⟩ _).2.2.2.2 _ 1 _ (by decide)⟩

/-! ## Claim C3 -/

/-- C3.  Full merge (`nt_only = False`): every book is processed (first and
second conjuncts); a verse whose location key is in the mapping gets exactly
the mapped list (third conjunct); a verse whose key is absent has its
footnote field removed entirely (fourth conjunct); and a mapping entry whose
key matches no verse of the document is silently ignored — adding it changes
nothing and no error is possible (fifth conjunct). -/
theorem c3_full_merge_replace (d : Document) (m : FnMap) :
    (MySword.merge_footnotes_into_json d m false).books
        = d.books.map (MySword.update_book m false) ∧
    (∀ b : Book, MySword.update_book m false b
        = { b with chapters := b.chapters.map (MySword.update_chapter m false b.name) }) ∧
    (∀ (bn : String) (ch : Nat) (v : Verse) (fns : List Footnote),
      alookup m (bn, ch, v.verse) = some fns →
      MySword.update_verse m false bn ch v = { v with footnotes := some fns }) ∧
    (∀ (bn : String) (ch : Nat) (v : Verse),
      alookup m (bn, ch, v.verse) = none →
      MySword.update_verse m false bn ch v = { v with footnotes := none }) ∧
    (∀ (k : LocKey) (fns : List Footnote),
      (∀ b ∈ d.books, ∀ c ∈ b.chapters, ∀ v ∈ c.verses, (b.name, c.chapter, v.verse) ≠ k) →
      MySword.merge_footnotes_into_json d (m ++ [(k, fns)]) false
        = MySword.merge_footnotes_into_json d m false) := by
  refine ⟨rfl, fun b => ?_, fun bn ch v fns h => ?_, fun bn ch v h => ?_, fun k fns hk => ?_⟩
  · unfold MySword.update_book
    rw [if_neg (fun hc => by cases hc.1)]
  · unfold MySword.update_verse
    rw [h]
  · unfold MySword.update_verse
    rw [h]
    rfl
  · unfold MySword.merge_footnotes_into_json
    have hb : d.books.map (MySword.update_book (m ++ [(k, fns)]) false)
        = d.books.map (MySword.update_book m false) := by
      refine List.map_congr_left fun b hbm => ?_
      unfold MySword.update_book
      rw [if_neg (fun hc => by cases hc.1), if_neg (fun hc => by cases hc.1)]
      refine congrArg _ (List.map_congr_left fun c hcm => ?_)
      unfold MySword.update_chapter
      refine congrArg _ (List.map_congr_left fun v hvm => ?_)
      unfold MySword.update_verse
      rw [alookup_append_ne m k _ fns (hk b hbm c hcm v hvm)]
    simp only [hb]

/-- Witness for C3 at concrete inputs: a mapped key replaces the footnotes,
an unmapped key removes the footnote field, and a mapping entry addressing a
verse that does not exist in the document is ignored. -/
theorem c3_full_merge_replace_witness :
    MySword.update_verse [(("Matthew", 1, 1), [⟨"", "Heb. x", "literal"⟩])] false
        "Matthew" 1 ⟨1, "t", some [⟨"a", "b", "alternate"⟩]⟩
      = ⟨1, "t", some [⟨"", "Heb. x", "literal"⟩]⟩ ∧
    MySword.update_verse [(("Matthew", 1, 1), [⟨"", "Heb. x", "literal"⟩])] false
        "Matthew" 1 ⟨2, "t", some [⟨"a", "b", "alternate"⟩]⟩
      = ⟨2, "t", none⟩ ∧
    MySword.merge_footnotes_into_json ⟨[⟨"Genesis", [⟨1, [⟨1, "t", none⟩]⟩]⟩], []⟩
        ([(("Matthew", 1, 1), [⟨"", "Heb. x", "literal"⟩])] ++ [(("Zzz", 3, 3), [⟨"c", "d", "mixed"⟩])]) false
      = MySword.merge_footnotes_into_json ⟨[⟨"Genesis", [⟨1, [⟨1, "t", none⟩]⟩]⟩], []⟩
        [(("Matthew", 1, 1), [⟨"", "Heb. x", "literal"⟩])] false := by
  refine ⟨(c3_full_merge_replace ⟨[], []⟩ _).2.2.1 _ 1 _ _ (by decide),
    (c3_full_merge_replace ⟨[], []⟩ _).2.2.2.1 _ 1 _ (by decide),
    (c3_full_merge_replace _ _).2.2.2.2 _ _ (by decide)⟩

/-- An entry predicate survives `mapAppend` when it holds for the new
singleton entry and is preserved by appending one footnote to a value. -/
theorem mapAppend_pres (P : LocKey × List Footnote → Prop) (m : FnMap) (k : LocKey)
    (fn : Footnote) (hm : ∀ e ∈ m, P e) (hnew : P (k, [fn]))
    (hext : ∀ (k' : LocKey) (fns : List Footnote), P (k', fns) → P (k', fns ++ [fn])) :
    ∀ e ∈ mapAppend m k fn, P e := by
  induction m with
  | nil =>
    intro e he
    simp only [mapAppend, List.mem_singleton] at he
    exact he ▸ hnew
  | cons hd rest ih =>
    obtain ⟨k', fns⟩ := hd
    intro e he
    unfold mapAppend at he
    by_cases hk : k' = k
    · rw [if_pos hk] at he
      rcases List.mem_cons.mp he with h1 | h2
      · exact h1 ▸ hext k' fns (hm _ (List.mem_cons_self _ _))
      · exact hm _ (List.mem_cons_of_mem _ h2)
    · rw [if_neg hk] at he
      rcases List.mem_cons.mp he with h1 | h2
      · exact h1 ▸ hm _ (List.mem_cons_self _ _)
      · exact ih (fun e' he' => hm e' (List.mem_cons_of_mem _ he')) _ h2

/-- An entry predicate survives a left fold of `mapAppend`s over one
location key (the appended footnotes arise from a list `xs` through `g`). -/
theorem foldl_mapAppend_pres {α : Type} (P : LocKey × List Footnote → Prop) (k : LocKey)
    (g : α → Footnote) (xs : List α) (m : FnMap) (hm : ∀ e ∈ m, P e)
    (hnew : ∀ x : α, P (k, [g x]))
    (hext : ∀ (k' : LocKey) (fns : List Footnote) (fn : Footnote), P (k', fns) → P (k', fns ++ [fn])) :
    ∀ e ∈ xs.foldl (fun acc x => mapAppend acc k (g x)) m, P e := by
  induction xs generalizing m with
  | nil => exact hm
  | cons x rest ih =>
    exact ih _ (mapAppend_pres P m k (g x) hm (hnew x) (fun k' fns h => hext k' fns (g x) h))

/-- An entry predicate survives one MySword cursor-row step provided it
holds for every entry the row can create. -/
theorem mswStep_pres (P : LocKey × List Footnote → Prop) (m : FnMap) (r : MySword.MswRow)
    (hm : ∀ e ∈ m, P e)
    (hnew : ∀ (bn : String) (fn : Footnote), alookup MySword.BOOK_NAMES r.book = some bn →
      P ((bn, r.chapter, r.verse), [fn]))
    (hext : ∀ (k' : LocKey) (fns : List Footnote) (fn : Footnote), P (k', fns) → P (k', fns ++ [fn])) :
    ∀ e ∈ MySword.mswStep m r, P e := by
  unfold MySword.mswStep
  cases halk : alookup MySword.BOOK_NAMES r.book with
  | none => exact hm
  | some bn =>
    exact foldl_mapAppend_pres P _ (fun fn => fn) _ m hm (fun fn => hnew bn fn halk) hext

/-- An entry predicate survives one SWORD record step provided it holds
for every entry the record can create. -/
theorem swordStep_pres (P : LocKey × List Footnote → Prop) (m : FnMap) (r : Sword.SwordRec)
    (hm : ∀ e ∈ m, P e)
    (hnew : ∀ fn : Footnote,
      P (((alookup Sword.SWORD_TO_PROJECT_BOOK_NAMES r.book).getD r.book, r.chapter, r.verse), [fn]))
    (hext : ∀ (k' : LocKey) (fns : List Footnote) (fn : Footnote), P (k', fns) → P (k', fns ++ [fn])) :
    ∀ e ∈ Sword.swordStep m r, P e := by
  unfold Sword.swordStep
  by_cases hn : MySword.containsSub (("<note").data) r.raw.data = true
  · simp only [hn, if_pos]
    exact foldl_mapAppend_pres P _ (fun nx => Sword.parse_note_text (String.mk nx)) _ m hm
      (fun nx => hnew _) hext
  · simp only [hn, Bool.false_eq_true, if_neg, reduceIte]
    exact hm

/-- A row whose book number is not in `BOOK_NAMES` is a no-op for the
MySword fold. -/
theorem mswStep_unknown (m : FnMap) (r : MySword.MswRow)
    (h : alookup MySword.BOOK_NAMES r.book = none) : MySword.mswStep m r = m := by
  unfold MySword.mswStep
  rw [h]

/-- The MySword fold ignores rows with unknown book numbers. -/
theorem msw_foldl_filter_known (rows : List MySword.MswRow) (m : FnMap) :
    rows.foldl MySword.mswStep m
      = (rows.filter (fun r => (alookup MySword.BOOK_NAMES r.book).isSome)).foldl
          MySword.mswStep m := by
  induction rows generalizing m with
  | nil => rfl
  | cons r rest ih =>
    by_cases hr : (alookup MySword.BOOK_NAMES r.book).isSome = true
    · simp only [List.foldl_cons, List.filter_cons, hr, if_pos]
      exact ih _
    · have hnone : alookup MySword.BOOK_NAMES r.book = none := by
        cases halk : alookup MySword.BOOK_NAMES r.book with
        | none => rfl
        | some bn => rw [halk] at hr; simp at hr
      simp only [List.foldl_cons, List.filter_cons, hr, if_neg, Bool.false_eq_true,
        mswStep_unknown m r hnone]
      exact ih m

/-- A successful table lookup returns one of the table's values. -/
theorem alookup_snd_mem {κ β : Type} [DecidableEq κ] (m : List (κ × β)) (k : κ) (v : β)
    (h : alookup m k = some v) : v ∈ m.map Prod.snd :=
  List.mem_map.mpr ⟨(k, v), alookup_mem m k v h, rfl⟩

/-! ## Claim C10 -/

/-- C10.  Every value of the location-keyed mapping produced by either
extractor is a non-empty footnote list — a key is only ever created at the
moment a footnote is appended under it (first two conjuncts) — and
consequently a merge step over a mapping with non-empty values can only show
an empty inline footnote list on a verse that already carried one (third
conjunct). -/
theorem c10_mapping_values_nonempty :
    (∀ (rows : List MySword.MswRow) (o : Bool),
      ∀ e ∈ MySword.extract_footnotes_from_mysword rows o, e.2 ≠ []) ∧
    (∀ recs : List Sword.SwordRec, ∀ e ∈ Sword.extract_footnotes recs, e.2 ≠ []) ∧
    (∀ (m : FnMap) (o : Bool) (bn : String) (ch : Nat) (v : Verse),
      (∀ e ∈ m, e.2 ≠ []) →
      (MySword.update_verse m o bn ch v).footnotes = some [] →
      v.footnotes = some []) := by
  have hext : ∀ (k' : LocKey) (fns : List Footnote) (fn : Footnote),
      (k', fns).2 ≠ ([] : List Footnote) → (k', fns ++ [fn]).2 ≠ [] := by
    intro k' fns fn _
    simp
  have hmsw : ∀ (rows : List MySword.MswRow) (m : FnMap), (∀ e ∈ m, e.2 ≠ []) →
      ∀ e ∈ rows.foldl MySword.mswStep m, e.2 ≠ [] := by
    intro rows
    induction rows with
    | nil => exact fun m hm => hm
    | cons r rest ih =>
      intro m hm
      exact ih _ (mswStep_pres _ m r hm (fun bn fn _ => by simp) hext)
  have hsword : ∀ (recs : List Sword.SwordRec) (m : FnMap), (∀ e ∈ m, e.2 ≠ []) →
      ∀ e ∈ recs.foldl Sword.swordStep m, e.2 ≠ [] := by
    intro recs
    induction recs with
    | nil => exact fun m hm => hm
    | cons r rest ih =>
      intro m hm
      exact ih _ (swordStep_pres _ m r hm (fun fn => by simp) hext)
  refine ⟨fun rows o => ?_, fun recs => ?_, fun m o bn ch v hm hv => ?_⟩
  · exact hmsw _ [] (fun e he => absurd he (List.not_mem_nil e))
  · exact hsword _ [] (fun e he => absurd he (List.not_mem_nil e))
  · unfold MySword.update_verse at hv
    cases halk : alookup m (bn, ch, v.verse) with
    | some fns =>
      rw [halk] at hv
      simp only at hv
      exact absurd (Option.some.inj hv) (hm _ (alookup_mem m _ fns halk))
    | none =>
      rw [halk] at hv
      cases o with
      | true => exact hv
      | false => simp at hv

/-- Witness for C10 at concrete inputs: a MySword row and a SWORD record
each produce a single-key mapping whose value is non-empty, and an in-scope
unmapped verse that already carried `footnotes = []` keeps it. -/
theorem c10_mapping_values_nonempty_witness :
    ((("Matthew", 1, 1), [(⟨"a", "Heb. n", "literal"⟩ : Footnote)]).2 ≠ []) ∧
    ((("NotABook", 1, 1), [(⟨"", "x", "alternate"⟩ : Footnote)]).2 ≠ []) ∧
    (⟨5, "t", some []⟩ : Verse).footnotes = some [] := by
  refine ⟨c10_mapping_values_nonempty.1 [⟨40, 1, 1, "a<RF>Heb. n<Rf>"⟩] true _ (by decide),
    c10_mapping_values_nonempty.2.1 [⟨"NotABook", 1, 1, "<note>x</note>"⟩] _ (by decide),
    c10_mapping_values_nonempty.2.2 [(("Matthew", 1, 1), [⟨"", "Heb. x", "literal"⟩])] true
      "Matthew" 1 ⟨5, "t", some []⟩ (by decide) (by decide)⟩

/-! ## Claim C8 (corrected) -/

/-- Counterexample to C8 as stated.  The claim asserts that EACH extractor
variant skips records whose book identifier does not map to a known project
book name, so that no footnote from an unknown book appears in the output
mapping.  The SWORD extractor has no such path: its override table is empty
and `.get(name, name)` defaults to the incoming name, so a record with book
name `"NotABook"` — which is not a project book name — is fully processed
and its footnote appears in the mapping under that unknown name. -/
theorem c8_sword_never_skips_counterexample :
    Sword.extract_footnotes [⟨"NotABook", 1, 1, "<note>x</note>"⟩]
      = [(("NotABook", 1, 1), [⟨"", "x", "alternate"⟩])] ∧
    "NotABook" ∉ MySword.projectBookNames := by
  exact ⟨rfl, by decide⟩

/-- C8 as amended.  The MySword extractor does skip-and-continue on unknown
book numbers: its output is unchanged when rows with unknown book numbers
are removed (first conjunct) and every key it produces carries a known
project book name (second conjunct).  The SWORD extractor never skips: a
record with ANY book name — known or not — and a well-formed note
contributes that note to the mapping under that name (third conjunct); an
unknown name is only silently ignored later, at merge time. -/
theorem c8_unknown_book_handling :
    (∀ (rows : List MySword.MswRow) (o : Bool),
      MySword.extract_footnotes_from_mysword rows o
        = MySword.extract_footnotes_from_mysword
            (rows.filter (fun r => (alookup MySword.BOOK_NAMES r.book).isSome)) o) ∧
    (∀ (rows : List MySword.MswRow) (o : Bool),
      ∀ e ∈ MySword.extract_footnotes_from_mysword rows o, e.1.1 ∈ MySword.projectBookNames) ∧
    (∀ (b : String) (ch v : Nat),
      Sword.extract_footnotes [⟨b, ch, v, "<note>x</note>"⟩]
        = [((b, ch, v), [⟨"", "x", "alternate"⟩])]) := by
  have hkeys : ∀ (rows : List MySword.MswRow) (m : FnMap),
      (∀ e ∈ m, e.1.1 ∈ MySword.projectBookNames) →
      ∀ e ∈ rows.foldl MySword.mswStep m, e.1.1 ∈ MySword.projectBookNames := by
    intro rows
    induction rows with
    | nil => exact fun m hm => hm
    | cons r rest ih =>
      intro m hm
      refine ih _ (mswStep_pres _ m r hm (fun bn fn halk => ?_) (fun k' fns fn h => h))
      exact alookup_snd_mem MySword.BOOK_NAMES r.book bn halk
  refine ⟨fun rows o => ?_, fun rows o => ?_, fun b ch v => rfl⟩
  · unfold MySword.extract_footnotes_from_mysword
    show List.foldl MySword.mswStep []
        (List.filter (MySword.rowKeep (if o = true then 40 else 1)) rows)
      = List.foldl MySword.mswStep []
          (List.filter (MySword.rowKeep (if o = true then 40 else 1))
            (List.filter (fun r => (alookup MySword.BOOK_NAMES r.book).isSome) rows))
    rw [msw_foldl_filter_known]
    rw [List.filter_filter, List.filter_filter]
    refine congrArg (fun l => List.foldl MySword.mswStep [] l) (List.filter_congr ?_)
    intro r _
    exact Bool.and_comm _ _
  · exact hkeys _ [] (fun e he => absurd he (List.not_mem_nil e))

/-- Witness for C8-as-amended: a MySword cursor with one unknown-book row
and one Matthew row yields the same mapping as the Matthew row alone, and
that mapping's key carries a known project book name. -/
theorem c8_unknown_book_handling_witness :
    MySword.extract_footnotes_from_mysword
        [⟨99, 1, 1, "a<RF>n<Rf>"⟩, ⟨40, 1, 1, "a<RF>Heb. n<Rf>"⟩] true
      = MySword.extract_footnotes_from_mysword
          ([⟨99, 1, 1, "a<RF>n<Rf>"⟩, ⟨40, 1, 1, "a<RF>Heb. n<Rf>"⟩].filter
            (fun r => (alookup MySword.BOOK_NAMES r.book).isSome)) true ∧
    "Matthew" ∈ MySword.projectBookNames := by
  refine ⟨c8_unknown_book_handling.1 _ true, ?_⟩
  exact c8_unknown_book_handling.2.1 [⟨40, 1, 1, "a<RF>Heb. n<Rf>"⟩] true
    (("Matthew", 1, 1), [⟨"a", "Heb. n", "literal"⟩]) (by decide)

/-! ## Claim C4 -/

/-- C4.  The full-replace merge is idempotent: applying
`merge_footnotes_into_json` twice with the same mapping in full mode
(`nt_only = False`, the `--all` path) yields the same document — same
inline per-verse footnotes and same flat records with the same ids — as
applying it once. -/
theorem c4_full_merge_idempotent (d : Document) (m : FnMap) :
    MySword.merge_footnotes_into_json (MySword.merge_footnotes_into_json d m false) m false
      = MySword.merge_footnotes_into_json d m false := by
  unfold MySword.merge_footnotes_into_json
  have hbooks : (d.books.map (MySword.update_book m false)).map (MySword.update_book m false)
      = d.books.map (MySword.update_book m false) := by
    rw [List.map_map]
    exact List.map_congr_left fun b _ => update_book_idem m false b
  simp only [hbooks]

/-! ## Whitespace-normalization lemmas (for C5 and C9) -/

/-- `collapseWs` output never has two adjacent whitespace characters, every
whitespace character it emits is `' '`, and the skip state resumes on a
non-whitespace character. -/
theorem collapse_norm (l : List Char) :
    (List.Chain' (fun a b => ¬(a.isWhitespace = true ∧ b.isWhitespace = true)) (collapseWs l) ∧
     ∀ c ∈ collapseWs l, c.isWhitespace = true → c = ' ') ∧
    (List.Chain' (fun a b => ¬(a.isWhitespace = true ∧ b.isWhitespace = true)) (collapseSkip l) ∧
     (∀ c, (collapseSkip l).head? = some c → c.isWhitespace = false) ∧
     ∀ c ∈ collapseSkip l, c.isWhitespace = true → c = ' ') := by
  induction l with
  | nil =>
    refine ⟨⟨?_, ?_⟩, ?_, ?_, ?_⟩ <;> simp [collapseWs, collapseSkip]
  | cons c cs ih =>
    obtain ⟨⟨hwchain, hwsp⟩, hschain, hshead, hssp⟩ := ih
    by_cases hw : c.isWhitespace = true
    · have e1 : collapseWs (c :: cs) = ' ' :: collapseSkip cs := by simp [collapseWs, hw]
      have e2 : collapseSkip (c :: cs) = collapseSkip cs := by simp [collapseSkip, hw]
      refine ⟨⟨?_, ?_⟩, ?_, ?_, ?_⟩
      · rw [e1]
        exact List.chain'_cons'.mpr ⟨fun y hy => by simp [hshead y hy], hschain⟩
      · rw [e1]
        intro d hd hdw
        rcases List.mem_cons.mp hd with h1 | h2
        · exact h1
        · exact hssp d h2 hdw
      · rw [e2]; exact hschain
      · rw [e2]; exact hshead
      · rw [e2]; exact hssp
    · have hw' : c.isWhitespace = false := by simpa using hw
      have e1 : collapseWs (c :: cs) = c :: collapseWs cs := by simp [collapseWs, hw']
      have e2 : collapseSkip (c :: cs) = c :: collapseWs cs := by simp [collapseSkip, hw']
      refine ⟨⟨?_, ?_⟩, ?_, ?_, ?_⟩
      · rw [e1]
        exact List.chain'_cons'.mpr ⟨fun y hy => by simp [hw'], hwchain⟩
      · rw [e1]
        intro d hd hdw
        rcases List.mem_cons.mp hd with h1 | h2
        · rw [h1, hw'] at hdw; cases hdw
        · exact hwsp d h2 hdw
      · rw [e2]
        exact List.chain'_cons'.mpr ⟨fun y hy => by simp [hw'], hwchain⟩
      · rw [e2]
        intro d hd
        simp only [List.head?_cons, Option.some.injEq] at hd
        rw [← hd]; exact hw'
      · rw [e2]
        intro d hd hdw
        rcases List.mem_cons.mp hd with h1 | h2
        · rw [h1, hw'] at hdw; cases hdw
        · exact hwsp d h2 hdw

/-- Trimming preserves any symmetric chain condition. -/
theorem chain'_trimWs {R : Char → Char → Prop} (hsymm : ∀ a b, R a b → R b a)
    (l : List Char) (h : List.Chain' R l) : List.Chain' R (trimWs l) := by
  unfold trimWs
  have h1 : List.Chain' R (l.dropWhile Char.isWhitespace) :=
    h.suffix (List.dropWhile_suffix _)
  have h2 : List.Chain' R (l.dropWhile Char.isWhitespace).reverse :=
    List.chain'_reverse.mpr (h1.imp (fun a b hab => hsymm a b hab))
  have h3 : List.Chain' R ((l.dropWhile Char.isWhitespace).reverse.dropWhile Char.isWhitespace) :=
    h2.suffix (List.dropWhile_suffix _)
  exact List.chain'_reverse.mpr (h3.imp (fun a b hab => hsymm a b hab))

/-- Trimming only removes characters. -/
theorem trimWs_mem (l : List Char) (c : Char) (h : c ∈ trimWs l) : c ∈ l := by
  unfold trimWs at h
  rw [List.mem_reverse] at h
  have h2 : c ∈ (l.dropWhile Char.isWhitespace).reverse := (List.dropWhile_sublist _).subset h
  rw [List.mem_reverse] at h2
  exact (List.dropWhile_sublist _).subset h2

/-- The head of a `dropWhile` output falsifies the predicate. -/
theorem head?_dropWhile_false (p : Char → Bool) (l : List Char) (c : Char)
    (h : (l.dropWhile p).head? = some c) : p c = false := by
  simpa [h] using List.head?_dropWhile_not p l

/-- The last character of a trimmed string is not whitespace. -/
theorem trimWs_getLast_not (l : List Char) (c : Char)
    (h : (trimWs l).getLast? = some c) : c.isWhitespace = false := by
  unfold trimWs at h
  rw [List.getLast?_reverse] at h
  exact head?_dropWhile_false _ _ _ h

/-- The first character of a trimmed string is not whitespace. -/
theorem trimWs_head_not (l : List Char) (c : Char)
    (h : (trimWs l).head? = some c) : c.isWhitespace = false := by
  unfold trimWs at h
  rw [List.head?_reverse] at h
  obtain ⟨t, ht⟩ :=
    List.dropWhile_suffix (l := (l.dropWhile Char.isWhitespace).reverse) Char.isWhitespace
  have hw : ((l.dropWhile Char.isWhitespace).reverse).getLast? = some c := by
    rw [← ht, List.getLast?_append, h]
    rfl
  rw [List.getLast?_reverse] at hw
  exact head?_dropWhile_false _ _ _ hw

/-- Normal form of `trim(collapse(x))`: no adjacent whitespace pair, every
whitespace character is a single `' '`, and both ends are non-whitespace. -/
theorem trim_collapse_norm (x : List Char) :
    List.Chain' (fun a b => ¬(a.isWhitespace = true ∧ b.isWhitespace = true))
      (trimWs (collapseWs x)) ∧
    (∀ c ∈ trimWs (collapseWs x), c.isWhitespace = true → c = ' ') ∧
    (∀ c, (trimWs (collapseWs x)).head? = some c → c.isWhitespace = false) ∧
    (∀ c, (trimWs (collapseWs x)).getLast? = some c → c.isWhitespace = false) := by
  refine ⟨?_, ?_, ?_, ?_⟩
  · exact chain'_trimWs (fun a b hab h => hab ⟨h.2, h.1⟩) _ (collapse_norm x).1.1
  · intro c hc hcw
    exact (collapse_norm x).1.2 c (trimWs_mem _ c hc) hcw
  · exact fun c h => trimWs_head_not _ c h
  · exact fun c h => trimWs_getLast_not _ c h

/-! ## Claim C9 -/

/-- C9.  `clean_note_text` is a total function (it is defined for every
input string, malformed or unbalanced tags included), its output is
whitespace-normalized — no two adjacent whitespace characters, every
whitespace character a single `' '`, no leading or trailing whitespace
(first conjunct) — and on concrete inputs: paired known tags are removed
with their content preserved, the three HTML entities are decoded, runs of
whitespace are collapsed and trimmed, an unbalanced known tag is removed,
a fragment that does not match the tag shape (no closing `>`) is left
as-is, and generic `<...>` tags are removed. -/
theorem c9_clean_note_text_total_normalized :
    (∀ s : String,
      List.Chain' (fun a b => ¬(a.isWhitespace = true ∧ b.isWhitespace = true))
        (MySword.clean_note_text s).data ∧
      (∀ c ∈ (MySword.clean_note_text s).data, c.isWhitespace = true → c = ' ') ∧
      (∀ c, ((MySword.clean_note_text s).data).head? = some c → c.isWhitespace = false) ∧
      (∀ c, ((MySword.clean_note_text s).data).getLast? = some c → c.isWhitespace = false)) ∧
    MySword.clean_note_text ("<i>abc</i>") = "abc" ∧
    MySword.clean_note_text ("x &amp;&lt;&gt; y") = "x &<> y" ∧
    MySword.clean_note_text ("  a \t\n b ") = "a b" ∧
    MySword.clean_note_text ("<i>a") = "a" ∧
    MySword.clean_note_text ("a <strange") = "a <strange" ∧
    MySword.clean_note_text ("<custom attr>z</custom>") = "z" := by
  refine ⟨fun s => ?_, rfl, rfl, rfl, rfl, rfl, rfl⟩
  exact trim_collapse_norm _

/-- Witness for C9 at a concrete input: the first character of
`clean_note_text "  a \t\n b "` is non-whitespace, its space is `' '`, and
its last character is non-whitespace. -/
theorem c9_clean_note_text_total_normalized_witness :
    ('a').isWhitespace = false ∧ (' ' : Char) = ' ' ∧ ('b').isWhitespace = false := by
  refine ⟨(c9_clean_note_text_total_normalized.1 ("  a \t\n b ")).2.2.1 'a' (by decide),
    (c9_clean_note_text_total_normalized.1 ("  a \t\n b ")).2.1 ' ' (by decide) (by decide),
    (c9_clean_note_text_total_normalized.1 ("  a \t\n b ")).2.2.2 'b' (by decide)⟩

/-! ## Claim C5 -/

/-- `rstrip` either empties the string or keeps its first character. -/
theorem rstripPunct_head (l : List Char) :
    MySword.rstripPunct l = [] ∨ (MySword.rstripPunct l).head? = l.head? := by
  unfold MySword.rstripPunct
  cases hz : l.reverse.dropWhile (fun c => c == ':' || c == ';' || c == ',' || c == '.') with
  | nil => left; rfl
  | cons a as =>
    right
    rw [List.head?_reverse]
    obtain ⟨t, ht⟩ :=
      List.dropWhile_suffix (l := l.reverse)
        (fun c => c == ':' || c == ';' || c == ',' || c == '.')
    have hw : l.reverse.getLast? = (a :: as).getLast? := by
      rw [← ht, hz, List.getLast?_append]
      cases hg : (a :: as).getLast? with
      | none => rw [List.getLast?_eq_none_iff] at hg; cases hg
      | some x => rfl
    rw [List.getLast?_reverse] at hw
    rw [hw]

/-- The word-accumulating split state never returns an empty word list. -/
theorem pySplitW_ne_nil (acc l : List Char) : pySplitW acc l ≠ [] := by
  induction l generalizing acc with
  | nil => simp [pySplitW]
  | cons c cs ih =>
    by_cases hc : c.isWhitespace = true
    · simp [pySplitW, hc]
    · have hc' : c.isWhitespace = false := by simpa using hc
      simp only [pySplitW, hc', Bool.false_eq_true, if_neg]
      exact ih (c :: acc)

/-- A string with a non-whitespace first character splits into at least one
word. -/
theorem pySplit_ne_nil_of_head (l : List Char) (c : Char) (h : l.head? = some c)
    (hc : c.isWhitespace = false) : pySplit l ≠ [] := by
  cases l with
  | nil => cases h
  | cons d ds =>
    simp only [List.head?_cons, Option.some.injEq] at h
    rw [← h] at hc
    simp only [pySplit, hc, Bool.false_eq_true, if_neg]
    exact pySplitW_ne_nil [d] ds

/-- No character of any word produced by `pySplit` is whitespace. -/
theorem pySplit_no_ws (l : List Char) :
    (∀ w ∈ pySplit l, ∀ c ∈ w, c.isWhitespace = false) ∧
    (∀ acc : List Char, (∀ c ∈ acc, c.isWhitespace = false) →
      ∀ w ∈ pySplitW acc l, ∀ c ∈ w, c.isWhitespace = false) := by
  induction l with
  | nil =>
    constructor
    · simp [pySplit]
    · intro acc hacc w hw c hc
      simp only [pySplitW, List.mem_singleton] at hw
      rw [hw] at hc
      exact hacc c (List.mem_reverse.mp hc)
  | cons d cs ih =>
    obtain ⟨ih1, ih2⟩ := ih
    by_cases hd : d.isWhitespace = true
    · constructor
      · intro w hw
        rw [show pySplit (d :: cs) = pySplit cs from by simp [pySplit, hd]] at hw
        exact ih1 w hw
      · intro acc hacc w hw
        rw [show pySplitW acc (d :: cs) = acc.reverse :: pySplit cs from by
          simp [pySplitW, hd]] at hw
        rcases List.mem_cons.mp hw with h1 | h2
        · intro c hc
          rw [h1] at hc
          exact hacc c (List.mem_reverse.mp hc)
        · exact ih1 w h2
    · have hd' : d.isWhitespace = false := by simpa using hd
      constructor
      · intro w hw
        rw [show pySplit (d :: cs) = pySplitW [d] cs from by simp [pySplit, hd']] at hw
        refine ih2 [d] ?_ w hw
        intro c hc
        rw [List.mem_singleton.mp hc]
        exact hd'
      · intro acc hacc w hw
        rw [show pySplitW acc (d :: cs) = pySplitW (d :: acc) cs from by
          simp [pySplitW, hd']] at hw
        refine ih2 (d :: acc) ?_ w hw
        intro c hc
        rcases List.mem_cons.mp hc with h1 | h2
        · rw [h1]; exact hd'
        · exact hacc c h2

/-- On a non-empty cleaned prefix, `extract_catch_word` returns exactly the
last whitespace-delimited token of the cleaned prefix. -/
theorem ecw_getLast (s : String) (h : MySword.catchClean s.data ≠ []) :
    (pySplit (MySword.catchClean s.data)).getLast?
      = some (MySword.extract_catch_word s).data := by
  have hform : ∃ y, MySword.catchClean s.data = MySword.rstripPunct (trimWs y) := ⟨_, rfl⟩
  obtain ⟨y, hy⟩ := hform
  have hne : pySplit (MySword.catchClean s.data) ≠ [] := by
    cases hh : (MySword.catchClean s.data).head? with
    | none =>
      rw [List.head?_eq_none_iff] at hh
      exact absurd hh h
    | some c =>
      refine pySplit_ne_nil_of_head _ c hh ?_
      rw [hy] at hh
      rcases rstripPunct_head (trimWs y) with h0 | h1
      · rw [hy, h0] at h
        exact absurd rfl h
      · rw [h1] at hh
        exact trimWs_head_not y c hh
  cases hg : (pySplit (MySword.catchClean s.data)).getLast? with
  | none =>
    rw [List.getLast?_eq_none_iff] at hg
    exact absurd hg hne
  | some w =>
    simp only [MySword.extract_catch_word, if_neg h, hg]

/-- C5.  The Catch-Word Resolver: on the spec's example prefix it returns
`"he"` (first conjunct); when the cleaned prefix is empty it returns the
empty string, never raising — the function is total (second conjunct); on a
non-empty cleaned prefix it returns exactly the last whitespace-delimited
token of the prefix after tag stripping, trimming and trailing-punctuation
stripping from the set : ; , . (third conjunct); and the returned token
never contains whitespace (fourth conjunct). -/
theorem c5_extract_catch_word :
    MySword.extract_catch_word ("...the word is <WH1234>truth<Fr>, saith he:") = "he" ∧
    (∀ s : String, MySword.catchClean s.data = [] → MySword.extract_catch_word s = "") ∧
    (∀ s : String, MySword.catchClean s.data ≠ [] →
      (pySplit (MySword.catchClean s.data)).getLast?
        = some (MySword.extract_catch_word s).data) ∧
    (∀ s : String, ∀ c ∈ (MySword.extract_catch_word s).data, c.isWhitespace = false) := by
  refine ⟨rfl, fun s h => ?_, fun s h => ecw_getLast s h, fun s c hc => ?_⟩
  · simp [MySword.extract_catch_word, h]
  · by_cases h : MySword.catchClean s.data = []
    · rw [show MySword.extract_catch_word s = "" from by
        simp [MySword.extract_catch_word, h]] at hc
      cases hc
    · have h3 := ecw_getLast s h
      have hmem : (MySword.extract_catch_word s).data ∈ pySplit (MySword.catchClean s.data) :=
        List.mem_of_getLast?_eq_some h3
      exact (pySplit_no_ws (MySword.catchClean s.data)).1 _ hmem c hc

/-- Witness for C5 at concrete inputs: the empty prefix yields `""`, the
prefix `"abc"` yields its own single token, and the characters of the token
extracted from `"a b"` are non-whitespace. -/
theorem c5_extract_catch_word_witness :
    MySword.extract_catch_word "" = "" ∧
    (pySplit (MySword.catchClean (("abc").data))).getLast?
      = some (MySword.extract_catch_word ("abc")).data ∧
    ('b').isWhitespace = false := by
  refine ⟨c5_extract_catch_word.2.1 "" (by decide),
    c5_extract_catch_word.2.2.1 ("abc") (by decide),
    c5_extract_catch_word.2.2.2 ("a b") 'b' (by decide)⟩

/-! ## Claim C6 -/

/-- C6.  The Note Classifier: the four example texts classify as the spec
says (first four conjuncts); there is no fourth category (fifth conjunct);
and the classification rule is exactly case-insensitive marker matching —
`mixed` iff both marker sets match, `literal` iff only the literal set
matches, and `alternate` iff the literal set does not match, which includes
the no-match-at-all default (sixth conjunct). -/
theorem c6_classify_note_type :
    MySword.classify_note_type ("Heb. the heart") = "literal" ∧
    MySword.classify_note_type ("Or, some read it otherwise") = "alternate" ∧
    MySword.classify_note_type ("Heb. lit. Or, see margin") = "mixed" ∧
    MySword.classify_note_type ("nothing special here") = "alternate" ∧
    (∀ s : String, MySword.classify_note_type s = "mixed" ∨
      MySword.classify_note_type s = "literal" ∨
      MySword.classify_note_type s = "alternate") ∧
    (∀ s : String,
      (MySword.classify_note_type s = "mixed" ↔
        MySword.has_literal (MySword.pyLower s.data) = true ∧
        MySword.has_alternate (MySword.pyLower s.data) = true) ∧
      (MySword.classify_note_type s = "literal" ↔
        MySword.has_literal (MySword.pyLower s.data) = true ∧
        MySword.has_alternate (MySword.pyLower s.data) = false) ∧
      (MySword.classify_note_type s = "alternate" ↔
        MySword.has_literal (MySword.pyLower s.data) = false)) := by
  refine ⟨rfl, rfl, rfl, rfl, fun s => ?_, fun s => ?_⟩
  · cases hl : MySword.has_literal (MySword.pyLower s.data) <;>
      cases ha : MySword.has_alternate (MySword.pyLower s.data) <;>
      simp [MySword.classify_note_type, hl, ha]
  · cases hl : MySword.has_literal (MySword.pyLower s.data) <;>
      cases ha : MySword.has_alternate (MySword.pyLower s.data) <;>
      simp [MySword.classify_note_type, hl, ha]

/-- Witness for C6: the classification rule applied at a concrete text
containing both a literal and an alternate marker. -/
theorem c6_classify_note_type_witness :
    MySword.classify_note_type ("Heb. Or, x") = "mixed" := by
  exact ((c6_classify_note_type.2.2.2.2.2 ("Heb. Or, x")).1).mpr ⟨by decide, by decide⟩

/-! ## Claim C7 -/

/-- C7.  The SWORD extractor's note type is decided by the structural
`<rdg type="...">` elements, not by free-text keywords: `mixed` iff the note
has both an `x-literal` and an `alternate` reading, `literal` iff it has
only `x-literal` readings, and `alternate` otherwise, including notes with
no `rdg` element at all (first conjunct); concrete examples of the four
cases (next four conjuncts); and a note whose text contains the keyword
`Heb.` but no `rdg` element classifies `alternate` here even though the
MySword keyword classifier would say `literal` (last two conjuncts). -/
theorem c7_sword_note_type_structural :
    (∀ xml : String,
      ((Sword.parse_note_text xml).note_type = "mixed" ↔
        Sword.findContents (("<rdg type=\"x-literal\">").data) (("</rdg>").data) xml.data ≠ [] ∧
        Sword.findContents (("<rdg type=\"alternate\">").data) (("</rdg>").data) xml.data ≠ []) ∧
      ((Sword.parse_note_text xml).note_type = "literal" ↔
        Sword.findContents (("<rdg type=\"x-literal\">").data) (("</rdg>").data) xml.data ≠ [] ∧
        Sword.findContents (("<rdg type=\"alternate\">").data) (("</rdg>").data) xml.data = []) ∧
      ((Sword.parse_note_text xml).note_type = "alternate" ↔
        Sword.findContents (("<rdg type=\"x-literal\">").data) (("</rdg>").data) xml.data = [])) ∧
    (Sword.parse_note_text
      ("<note><rdg type=\"x-literal\">a</rdg> <rdg type=\"alternate\">b</rdg></note>")).note_type
        = "mixed" ∧
    (Sword.parse_note_text
      ("<note><catchWord>was</catchWord>: <rdg type=\"x-literal\">being</rdg></note>")).note_type
        = "literal" ∧
    (Sword.parse_note_text ("<note><rdg type=\"alternate\">b</rdg></note>")).note_type
        = "alternate" ∧
    (Sword.parse_note_text ("<note>x</note>")).note_type = "alternate" ∧
    (Sword.parse_note_text ("<note>Heb. foo</note>")).note_type = "alternate" ∧
    MySword.classify_note_type ("Heb. foo") = "literal" := by
  refine ⟨fun xml => ?_, rfl, rfl, rfl, rfl, rfl, rfl⟩
  by_cases hl : Sword.findContents (("<rdg type=\"x-literal\">").data) (("</rdg>").data) xml.data = [] <;>
    by_cases ha : Sword.findContents (("<rdg type=\"alternate\">").data) (("</rdg>").data) xml.data = [] <;>
    simp [Sword.parse_note_text, hl, ha]

/-- Witness for C7: the structural rule applied at a concrete note with
both reading kinds. -/
theorem c7_sword_note_type_structural_witness :
    (Sword.parse_note_text
      ("<note><rdg type=\"x-literal\">a</rdg><rdg type=\"alternate\">b</rdg></note>")).note_type
        = "mixed" := by
  exact ((c7_sword_note_type_structural.1
    ("<note><rdg type=\"x-literal\">a</rdg><rdg type=\"alternate\">b</rdg></note>")).1).mpr
    ⟨by decide, by decide⟩

end BibleDB
